import Mathlib

/-!
Shallow embedding of the `serde_map` crate: an order-preserving associative
container `SerdeMap` backed by a `Vec<(KS::Des, V)>`, with a pluggable key
codec strategy (`SerdeMapStrategy`), serde map (de)serialization, hash-map
interop, a scylla map-column serializer, and a typesense field-type report.

Rust `Vec<(Des, V)>` is modelled as `List (D × V)`; machine `usize`/`i32`
lengths are modelled as `Nat` with the explicit bound `i32Max`; fallible
operations return `Except`.
-/

set_option autoImplicit false

namespace SerdeMapModel

/-- Embeds the trait `SerdeMapStrategy<Ser>`: `Des` is the deserialized
(domain) key type `D`, `serialize` projects a domain key to its wire form
(`fn serialize(d: &Self::Des) -> Self::SerRet`), and `deserialize` lifts a
wire key, possibly failing with an error of type `ε`
(`fn deserialize<E: Error>(s: Ser) -> Result<Self::Des, E>`). -/
structure SerdeMapStrategy (Ser D ε : Type) where
  serialize : D → Ser
  deserialize : Ser → Except ε D

/-- The `Linear` strategy: `type Des = Ser`, `serialize` returns the key
itself and `deserialize` is `Ok(s)`. -/
def Linear (Ser ε : Type) : SerdeMapStrategy Ser Ser ε where
  serialize := fun d => d
  deserialize := fun s => Except.ok s

/-- Models `SerdeMap<K, V, KS>` is `pub struct SerdeMap(pub Vec<(KS::Des, V)>, PhantomData<KS>)`:
an ordered sequence of `(domain key, value)` pairs. `D` stands for `KS::Des`;
the phantom strategy marker has no runtime content and is passed to the
operations that use it. -/
structure SerdeMap (D V : Type) where
  data : List (D × V)
deriving DecidableEq

namespace SerdeMap

variable {D V : Type}

/-- Models `SerdeMap::new()`. -/
def new : SerdeMap D V := ⟨[]⟩

/-- Models `SerdeMap::with_capacity(n)`: the capacity is an allocation hint only. -/
def with_capacity (_capacity : Nat) : SerdeMap D V := ⟨[]⟩

/-- Models `SerdeMap::insert_unchecked(k, v)`: `self.0.push((k, v))`. -/
def insert_unchecked (m : SerdeMap D V) (k : D) (v : V) : SerdeMap D V :=
  ⟨m.data ++ [(k, v)]⟩

/-- Models `SerdeMap::len()`. -/
def len (m : SerdeMap D V) : Nat := m.data.length

/-- Models `SerdeMap::is_empty()`. -/
def is_empty (m : SerdeMap D V) : Bool := m.data.isEmpty

/-- Models `SerdeMap::push_to_same_last(k, v)` (on `SerdeMap<K, Vec<V>, KS>`):
if the last entry exists and its key equals `k`, push `v` onto that entry's
value vector; otherwise push a new `(k, vec![v])` entry. -/
def push_to_same_last [DecidableEq D] (m : SerdeMap D (List V)) (k : D)
    (v : V) : SerdeMap D (List V) :=
  match m.data.getLast? with
  | some p =>
      if p.1 = k then ⟨m.data.dropLast ++ [(p.1, p.2 ++ [v])]⟩
      else ⟨m.data ++ [(k, [v])]⟩
  | none => ⟨m.data ++ [(k, [v])]⟩

/-- Models `impl IntoIterator for SerdeMap` (by value): yields the pairs in order. -/
def into_iter (m : SerdeMap D V) : List (D × V) := m.data

/-- Models `impl IntoIterator for &SerdeMap`: the order of entries yielded by
`self.0.iter()`. -/
def iter (m : SerdeMap D V) : List (D × V) := m.data

/-- Models `impl IntoIterator for &mut SerdeMap`: the order of entries yielded by
`self.0.iter_mut()`. -/
def iter_mut (m : SerdeMap D V) : List (D × V) := m.data

/-- Models `impl From<Vec<(KS::Des, V)>> for SerdeMap`. -/
def from_vec (l : List (D × V)) : SerdeMap D V := ⟨l⟩

/-- Folding `insert_unchecked` over a list of pairs: the way a container is
"built by inserting N pairs". -/
def insertAll (m : SerdeMap D V) (pairs : List (D × V)) : SerdeMap D V :=
  pairs.foldl (fun acc kv => acc.insert_unchecked kv.1 kv.2) m

end SerdeMap

/-! ## Hash-map interop

A Rust `HashMap` is modelled as its list of entries in (arbitrary) iteration
order; a well-formed hash map has no duplicate keys. `hmInsert` is
`HashMap::insert` (replace the value of an existing key, otherwise add the
entry), `hmGet` is lookup, and `hmFromList` is `FromIterator for HashMap`
(insert every pair in order, later keys overwriting earlier ones). -/

/-- Keys of a hash map's entry list. -/
def hmKeys {D V : Type} (l : List (D × V)) : List D := l.map Prod.fst

/-- Models `HashMap::insert`: replace the value stored under `k` if present,
otherwise add the entry. -/
def hmInsert {D V : Type} [DecidableEq D] (l : List (D × V)) (k : D) (v : V) :
    List (D × V) :=
  if k ∈ hmKeys l then
    l.map (fun kv => if kv.1 = k then (k, v) else kv)
  else l ++ [(k, v)]

/-- Hash-map lookup. -/
def hmGet {D V : Type} [DecidableEq D] (l : List (D × V)) (k : D) : Option V :=
  (l.find? (fun kv => kv.1 = k)).map Prod.snd

/-- Models `HashMap::from_iter` / `.collect()`: insert every pair in order. -/
def hmFromList {D V : Type} [DecidableEq D] (pairs : List (D × V)) :
    List (D × V) :=
  pairs.foldl (fun acc kv => hmInsert acc kv.1 kv.2) []

namespace SerdeMap

variable {D V : Type}

/-- Models `impl From<HashMap<KS::Des, V, S>> for SerdeMap`:
`hash.into_iter().collect()` — the container's order is the hash map's
iteration order. -/
def from_hash_map (h : List (D × V)) : SerdeMap D V := ⟨h⟩

/-- Models `impl From<SerdeMap> for HashMap`: `v.0.into_iter().collect()`. -/
def to_hash_map [DecidableEq D] (m : SerdeMap D V) : List (D × V) :=
  hmFromList m.data

end SerdeMap

/-- Modelled from the spec: "retains only the last occurrence's value" —
the value of the last entry of `l` whose key is `k`, if any. Used as the
specification side of the duplicate-key hash-map conversion claim. -/
def lookupLast {D V : Type} [DecidableEq D] : List (D × V) → D → Option V
  | [], _ => none
  | (k', v) :: rest, k =>
      match lookupLast rest k with
      | some w => some w
      | none => if k = k' then some v else none

/-! ## Serde map protocol

The serde `SerializeMap` sink is modelled as the declared length hint plus
the ordered list of written wire entries; `serializer.serialize_map(Some(len))`
begins a map, `serialize_entry` appends one entry. A self-describing
deserializer input is either map-shaped (an ordered entry stream, consumed
one entry at a time by `visit_map`) or not; on non-map input the
deserializer raises `Error::invalid_type(got, &"a map")` built from the
visitor's `expecting` string. -/

/-- State of a serde `SerializeMap` sink. -/
structure MapSerializer (Ser V : Type) where
  declaredLen : Option Nat
  entries : List (Ser × V)
deriving DecidableEq

/-- Models `serializer.serialize_map(len_hint)`. -/
def serializeMapBegin {Ser V : Type} (lenHint : Option Nat) :
    MapSerializer Ser V := ⟨lenHint, []⟩

/-- Models `map.serialize_entry(&key, value)`. -/
def MapSerializer.serialize_entry {Ser V : Type} (s : MapSerializer Ser V)
    (k : Ser) (v : V) : MapSerializer Ser V :=
  ⟨s.declaredLen, s.entries ++ [(k, v)]⟩

/-- Models `impl Serialize for SerdeMap`: begin a map of length `Some(self.len())`,
then for each pair in order write the entry `(KS::serialize(k), v)`. -/
def SerdeMap.serde_serialize {Ser D ε V : Type}
    (st : SerdeMapStrategy Ser D ε) (m : SerdeMap D V) : MapSerializer Ser V :=
  m.data.foldl (fun s kv => s.serialize_entry (st.serialize kv.1) kv.2)
    (serializeMapBegin (some m.len))

/-- A self-describing deserializer input: either a map-shaped entry stream,
or some other shape (carrying its description for the error message). -/
inductive DataValue (Ser V : Type) where
  | map : List (Ser × V) → DataValue Ser V
  | notMap : String → DataValue Ser V

/-- The `expecting` string of `MapVisitor`: `formatter.write_str("a map")`. -/
def mapVisitorExpecting : String := "a map"

/-- The loop of `MapVisitor::visit_map`:
`while let Some((key, value)) = access.next_entry()? {
   values.insert_unchecked(KS::deserialize(key)?, value); }`. -/
def visitMapGo {Ser D ε V : Type} (st : SerdeMapStrategy Ser D ε)
    (values : SerdeMap D V) : List (Ser × V) → Except ε (SerdeMap D V)
  | [] => Except.ok values
  | (key, value) :: rest =>
      match st.deserialize key with
      | Except.ok d => visitMapGo st (values.insert_unchecked d value) rest
      | Except.error e => Except.error e

/-- Models `MapVisitor::visit_map`: start from `SerdeMap::new()` and consume the
entry stream. -/
def visit_map {Ser D ε V : Type} (st : SerdeMapStrategy Ser D ε)
    (entries : List (Ser × V)) : Except ε (SerdeMap D V) :=
  visitMapGo st SerdeMap.new entries

/-- Models `impl Deserialize for SerdeMap`: `deserializer.deserialize_map(visitor)`.
A map-shaped input is handed to `visit_map`; any other shape makes the
(self-describing) deserializer fail with `Error::invalid_type` built from
the visitor's `expecting` string `"a map"`. `mkInvalid` is the serde
`Error::invalid_type` constructor of the error type `ε` (unexpected shape
description first, expecting string second). -/
def SerdeMap.serde_deserialize {Ser D ε V : Type}
    (st : SerdeMapStrategy Ser D ε) (mkInvalid : String → String → ε) :
    DataValue Ser V → Except ε (SerdeMap D V)
  | DataValue.map entries => visit_map st entries
  | DataValue.notMap got => Except.error (mkInvalid got mapVisitorExpecting)

/-- Modelled from the spec: the decoding contract stated declaratively —
convert each wire key via the strategy in order, propagating the first
error, and pair it with its (order-preserved) value. Used as the
specification side of the deserialization refinement claim. -/
def liftEntries {Ser D ε V : Type} (st : SerdeMapStrategy Ser D ε) :
    List (Ser × V) → Except ε (List (D × V))
  | [] => Except.ok []
  | (key, value) :: rest =>
      match st.deserialize key with
      | Except.ok d => (liftEntries st rest).map (fun t => (d, value) :: t)
      | Except.error e => Except.error e

/-! ## Scylla map-column serialization (`src/scylla/ser.rs`)

`ColumnType` models scylla's column types: collections (map/list/set, each
with a `frozen` flag) and everything else as a named native type. The cell
writer / value builder is modelled as the list of bytes appended so far
(bytes as `Nat` values `< 256`); a key or value sub-serializer is an
abstract function from the element and its declared column type to either
the bytes it appends or an error of type `ε`. -/

/-- Scylla `ColumnType` (the shapes `serialize_mapping` distinguishes). -/
inductive ColumnType where
  | mapCollection (frozen : Bool) (key value : ColumnType)
  | listCollection (frozen : Bool) (elem : ColumnType)
  | setCollection (frozen : Bool) (elem : ColumnType)
  | native (name : String)
deriving DecidableEq

/-- Models `MapTypeCheckErrorKind::NotMap` — the only kind `serialize_mapping`
raises at type-check time. -/
inductive MapTypeCheckErrorKind where
  | notMap
deriving DecidableEq

/-- Models `BuiltinTypeCheckError { rust_name, got, kind }`. -/
structure BuiltinTypeCheckError where
  rust_name : String
  got : ColumnType
  kind : MapTypeCheckErrorKind
deriving DecidableEq

/-- Models `MapSerializationErrorKind`. -/
inductive MapSerializationErrorKind (ε : Type) where
  | tooManyElements
  | keySerializationFailed (err : ε)
  | valueSerializationFailed (err : ε)
deriving DecidableEq

/-- Models `BuiltinSerializationErrorKind` (the variants this crate produces). -/
inductive BuiltinSerializationErrorKind (ε : Type) where
  | mapError (kind : MapSerializationErrorKind ε)
  | sizeOverflow
deriving DecidableEq

/-- Models `BuiltinSerializationError { rust_name, got, kind }`. -/
structure BuiltinSerializationError (ε : Type) where
  rust_name : String
  got : ColumnType
  kind : BuiltinSerializationErrorKind ε
deriving DecidableEq

/-- Models `SerializationError`: either a type-check error
(`mk_typck_err_named`) or a serialization error (`mk_ser_err_named`). -/
inductive SerializationError (ε : Type) where
  | typeCheckError (err : BuiltinTypeCheckError)
  | serializationError (err : BuiltinSerializationError ε)
deriving DecidableEq

/-- Models `i32::MAX`, the bound of `len.try_into::<i32>()`. -/
def i32Max : Nat := 2147483647

/-- Models `(n as i32).to_be_bytes()` for `0 ≤ n ≤ i32Max`: the four big-endian
bytes of `n`. -/
def toBeBytes32 (n : Nat) : List Nat :=
  [n / 16777216 % 256, n / 65536 % 256, n / 256 % 256, n % 256]

/-- The entry loop of `serialize_mapping`: for each `(k, v)` pair in order,
run the key sub-serializer against the map's key column type (wrapping a
failure as `KeySerializationFailed`), then the value sub-serializer
(wrapping as `ValueSerializationFailed`), appending the produced bytes to
the builder. -/
def serializeEntries {KD VD ε : Type} (rust_name : String)
    (typ ktyp vtyp : ColumnType)
    (serK : KD → ColumnType → Except ε (List Nat))
    (serV : VD → ColumnType → Except ε (List Nat))
    (builder : List Nat) :
    List (KD × VD) → Except (SerializationError ε) (List Nat)
  | [] => Except.ok builder
  | (k, v) :: rest =>
      match serK k ktyp with
      | Except.error e =>
          Except.error (SerializationError.serializationError
            ⟨rust_name, typ,
              BuiltinSerializationErrorKind.mapError
                (MapSerializationErrorKind.keySerializationFailed e)⟩)
      | Except.ok kb =>
          match serV v vtyp with
          | Except.error e =>
              Except.error (SerializationError.serializationError
                ⟨rust_name, typ,
                  BuiltinSerializationErrorKind.mapError
                    (MapSerializationErrorKind.valueSerializationFailed e)⟩)
          | Except.ok vb =>
              serializeEntries rust_name typ ktyp vtyp serK serV
                (builder ++ kb ++ vb) rest

/-- Models `serialize_mapping` from `src/scylla/ser.rs`: match the column type
(anything but an unfrozen map is a `NotMap` type-check error), convert the
length to `i32` (`TooManyElements` on overflow), append the big-endian
count, serialize the entries, and check the final size (`SizeOverflow`). -/
def serialize_mapping {KD VD ε : Type} (rust_name : String) (len : Nat)
    (entries : List (KD × VD)) (typ : ColumnType)
    (serK : KD → ColumnType → Except ε (List Nat))
    (serV : VD → ColumnType → Except ε (List Nat)) :
    Except (SerializationError ε) (List Nat) :=
  match typ with
  | ColumnType.mapCollection false ktyp vtyp =>
      if len ≤ i32Max then
        match serializeEntries rust_name (ColumnType.mapCollection false ktyp vtyp)
            ktyp vtyp serK serV (toBeBytes32 len) entries with
        | Except.error e => Except.error e
        | Except.ok bytes =>
            if bytes.length ≤ i32Max then Except.ok bytes
            else
              Except.error (SerializationError.serializationError
                ⟨rust_name, ColumnType.mapCollection false ktyp vtyp,
                  BuiltinSerializationErrorKind.sizeOverflow⟩)
      else
        Except.error (SerializationError.serializationError
          ⟨rust_name, typ,
            BuiltinSerializationErrorKind.mapError
              MapSerializationErrorKind.tooManyElements⟩)
  | typ => Except.error (SerializationError.typeCheckError
      ⟨rust_name, typ, MapTypeCheckErrorKind.notMap⟩)

/-- Whether a column type is an unfrozen map collection — the only shape
`serialize_mapping`'s type check accepts. -/
def isUnfrozenMap : ColumnType → Bool
  | ColumnType.mapCollection false _ _ => true
  | _ => false

/-- Models `impl SerializeValue for SerdeMap`: calls `serialize_mapping` with
`std::any::type_name::<Self>()` (passed here as `typeName`), `self.len()`
and `self.0.iter()`. -/
def SerdeMap.scylla_serialize {KD VD ε : Type} (typeName : String)
    (m : SerdeMap KD VD)
    (serK : KD → ColumnType → Except ε (List Nat))
    (serV : VD → ColumnType → Except ε (List Nat))
    (typ : ColumnType) : Except (SerializationError ε) (List Nat) :=
  serialize_mapping typeName m.len m.data typ serK serV

/-! ## Typesense field type (`src/typesense.rs`) -/

/-- Models `impl ToTypesenseField for SerdeMap<K, V, KS>`: `to_typesense_type()`
returns a static string, the same for every choice of the key type, value
type and strategy (the three arguments stand for `K`, `V` and `KS`). -/
def to_typesense_type (_K _V _KS : Type) : String := "object"

/-! ## Theorems -/

theorem insertAll_data {D V : Type} (pairs : List (D × V)) (m : SerdeMap D V) :
    (m.insertAll pairs).data = m.data ++ pairs := by
  induction pairs generalizing m with
  | nil => simp [SerdeMap.insertAll]
  | cons p t ih =>
      obtain ⟨k, v⟩ := p
      have := ih (m.insert_unchecked k v)
      simp [SerdeMap.insertAll, SerdeMap.insert_unchecked] at this ⊢
      simp [this]

theorem foldl_serialize_entry {Ser D ε V : Type} (st : SerdeMapStrategy Ser D ε)
    (l : List (D × V)) (s : MapSerializer Ser V) :
    l.foldl (fun s kv => s.serialize_entry (st.serialize kv.1) kv.2) s
      = ⟨s.declaredLen, s.entries ++ l.map (fun kv => (st.serialize kv.1, kv.2))⟩ := by
  induction l generalizing s with
  | nil => simp
  | cons p t ih =>
      obtain ⟨k, v⟩ := p
      rw [List.foldl_cons, ih]
      simp [MapSerializer.serialize_entry]

theorem visitMapGo_eq_liftEntries {Ser D ε V : Type}
    (st : SerdeMapStrategy Ser D ε) (acc : SerdeMap D V)
    (l : List (Ser × V)) :
    visitMapGo st acc l
      = (liftEntries st l).map (fun t => SerdeMap.mk (acc.data ++ t)) := by
  induction l generalizing acc with
  | nil => simp [visitMapGo, liftEntries, Except.map]
  | cons p rest ih =>
      obtain ⟨key, value⟩ := p
      show (match st.deserialize key with
          | Except.ok d => visitMapGo st (acc.insert_unchecked d value) rest
          | Except.error e => Except.error e)
        = (match st.deserialize key with
          | Except.ok d =>
              (liftEntries st rest).map (fun t => (d, value) :: t)
          | Except.error e => Except.error e).map
            (fun t => SerdeMap.mk (acc.data ++ t))
      cases st.deserialize key with
      | error e => rfl
      | ok d =>
          show visitMapGo st (acc.insert_unchecked d value) rest
            = ((liftEntries st rest).map (fun t => (d, value) :: t)).map
                (fun t => SerdeMap.mk (acc.data ++ t))
          rw [ih]
          cases liftEntries st rest with
          | error e => rfl
          | ok t =>
              simp [Except.map, SerdeMap.insert_unchecked, List.append_assoc]

theorem liftEntries_linear {Ser ε V : Type} (l : List (Ser × V)) :
    liftEntries (Linear Ser ε) l = Except.ok l := by
  induction l with
  | nil => simp [liftEntries]
  | cons p t ih =>
      obtain ⟨k, v⟩ := p
      show (liftEntries (Linear Ser ε) t).map (fun l => (k, v) :: l)
        = Except.ok ((k, v) :: t)
      rw [ih]
      rfl

theorem serde_serialize_spec {Ser D ε V : Type} (st : SerdeMapStrategy Ser D ε)
    (m : SerdeMap D V) :
    m.serde_serialize st
      = ⟨some m.len, m.data.map (fun kv => (st.serialize kv.1, kv.2))⟩ := by
  simp [SerdeMap.serde_serialize, foldl_serialize_entry, serializeMapBegin]

/-- Claim C1: building a container by inserting any list of pairs with the
`Linear` (identity) strategy, serializing it through the serde map
protocol, and deserializing the produced entry stream yields a container
with the identical ordered sequence of pairs. -/
theorem C1_linear_roundtrip {D V ε : Type} (pairs : List (D × V))
    (mkInvalid : String → String → ε) :
    SerdeMap.serde_deserialize (Linear D ε) mkInvalid
        (DataValue.map
          ((SerdeMap.new.insertAll pairs).serde_serialize (Linear D ε)).entries)
      = Except.ok (SerdeMap.new.insertAll pairs) := by
  have hdata : (SerdeMap.new.insertAll pairs).data = pairs := by
    simp [insertAll_data, SerdeMap.new]
  have hentries :
      ((SerdeMap.new.insertAll pairs).serde_serialize (Linear D ε)).entries
        = pairs := by
    rw [serde_serialize_spec, hdata]
    simp [Linear]
  rw [SerdeMap.serde_deserialize, hentries, visit_map,
    visitMapGo_eq_liftEntries, liftEntries_linear]
  simp [Except.map, SerdeMap.new]
  exact congrArg SerdeMap.mk hdata.symm

/-- Claim C3: after any sequence of `insert_unchecked` calls starting from
the empty container, `len()` equals the number of insertions and all three
iteration modes (by value, by reference, by mutable reference) yield
exactly the inserted pairs in insertion order, duplicate keys kept as
separate entries. -/
theorem C3_insert_order_preserved {D V : Type} (pairs : List (D × V)) :
    (SerdeMap.new.insertAll pairs).len = pairs.length
      ∧ (SerdeMap.new.insertAll pairs).into_iter = pairs
      ∧ (SerdeMap.new.insertAll pairs).iter = pairs
      ∧ (SerdeMap.new.insertAll pairs).iter_mut = pairs := by
  have hdata : (SerdeMap.new.insertAll pairs).data = pairs := by
    simp [insertAll_data, SerdeMap.new]
  exact ⟨by simp [SerdeMap.len, hdata], by simp [SerdeMap.into_iter, hdata],
    by simp [SerdeMap.iter, hdata], by simp [SerdeMap.iter_mut, hdata]⟩

/-- Claim C4: serializing a container presents it as a map whose declared
length is `len()`, whose entries appear in insertion order with each key
transformed by the strategy's `serialize` and each value passed to its own
serializer unchanged, with no additional framing. -/
theorem C4_encoding_contract {Ser D ε V : Type}
    (st : SerdeMapStrategy Ser D ε) (m : SerdeMap D V) :
    (m.serde_serialize st).declaredLen = some m.len
      ∧ (m.serde_serialize st).entries
          = m.data.map (fun kv => (st.serialize kv.1, kv.2)) := by
  rw [serde_serialize_spec]
  exact ⟨rfl, rfl⟩

/-- Claim C5: deserializing a map-shaped source converts each wire key via
the strategy's `deserialize` and appends the pairs in source order,
propagating the first key-conversion error with no partial result (the
result is exactly `liftEntries`, the declarative one-pass lift that aborts
on the first bad key); a non-map-shaped source fails with the
`invalid_type` error built from the visitor's `"a map"` expectation. -/
theorem C5_decoding_contract {Ser D ε V : Type}
    (st : SerdeMapStrategy Ser D ε) (mkInvalid : String → String → ε)
    (entries : List (Ser × V)) (got : String) :
    SerdeMap.serde_deserialize st mkInvalid (DataValue.map entries)
        = (liftEntries st entries).map (fun t => SerdeMap.mk t)
      ∧ SerdeMap.serde_deserialize st mkInvalid
          (DataValue.notMap got : DataValue Ser V)
        = Except.error (mkInvalid got "a map") := by
  constructor
  · rw [SerdeMap.serde_deserialize, visit_map, visitMapGo_eq_liftEntries]
    simp [SerdeMap.new]
  · rfl

/-- Claim C2: `push_to_same_last` with `(k,v1)` then `(k,v2)` and no
intervening different key yields the single entry `(k,[v1,v2])`; with
`(k,v1)`, `(k2,v3)`, `(k,v2)` for `k ≠ k2` it yields three entries with
the two `k` entries unmerged — merging compares only against the
immediately preceding entry. -/
theorem C2_merge_group_law {D V : Type} [DecidableEq D] (k k2 : D)
    (v1 v2 v3 : V) (hne : k ≠ k2) :
    ((SerdeMap.new.push_to_same_last k v1).push_to_same_last k v2).data
        = [(k, [v1, v2])]
      ∧ (((SerdeMap.new.push_to_same_last k v1).push_to_same_last k2 v3
            ).push_to_same_last k v2).data
        = [(k, [v1]), (k2, [v3]), (k, [v2])] := by
  have e1 : (SerdeMap.new : SerdeMap D (List V)).push_to_same_last k v1
      = ⟨[(k, [v1])]⟩ := rfl
  have e2 : (⟨[(k, [v1])]⟩ : SerdeMap D (List V)).push_to_same_last k v2
      = ⟨[(k, [v1, v2])]⟩ := by
    show (if k = k then (⟨[(k, [v1, v2])]⟩ : SerdeMap D (List V))
        else ⟨[(k, [v1]), (k, [v2])]⟩) = ⟨[(k, [v1, v2])]⟩
    exact if_pos rfl
  have e3 : (⟨[(k, [v1])]⟩ : SerdeMap D (List V)).push_to_same_last k2 v3
      = ⟨[(k, [v1]), (k2, [v3])]⟩ := by
    show (if k = k2 then (⟨[(k, [v1, v3])]⟩ : SerdeMap D (List V))
        else ⟨[(k, [v1]), (k2, [v3])]⟩) = ⟨[(k, [v1]), (k2, [v3])]⟩
    exact if_neg hne
  have e4 : (⟨[(k, [v1]), (k2, [v3])]⟩ : SerdeMap D (List V)
        ).push_to_same_last k v2
      = ⟨[(k, [v1]), (k2, [v3]), (k, [v2])]⟩ := by
    show (if k2 = k then (⟨[(k, [v1]), (k2, [v3, v2])]⟩ : SerdeMap D (List V))
        else ⟨[(k, [v1]), (k2, [v3]), (k, [v2])]⟩)
      = ⟨[(k, [v1]), (k2, [v3]), (k, [v2])]⟩
    exact if_neg (Ne.symm hne)
  constructor
  · rw [e1, e2]
  · rw [e1, e3, e4]

/-- Claim C2 witness at concrete inputs. -/
theorem C2_merge_group_law_witness :
    ((SerdeMap.new.push_to_same_last (0 : Nat) (1 : Nat)
        ).push_to_same_last 0 2).data = [(0, [1, 2])]
      ∧ (((SerdeMap.new.push_to_same_last (0 : Nat) (1 : Nat)
            ).push_to_same_last 1 3).push_to_same_last 0 2).data
        = [(0, [1]), (1, [3]), (0, [2])] :=
  C2_merge_group_law 0 1 1 2 3 (by decide)

/-- Claim C9: the typesense field-type query returns the fixed string
`"object"` for every key type, value type and strategy; it depends on no
runtime data. -/
theorem C9_typesense_field_type (K V KS K' V' KS' : Type) :
    to_typesense_type K V KS = "object"
      ∧ to_typesense_type K V KS = to_typesense_type K' V' KS' :=
  ⟨rfl, rfl⟩

/-- Claim C10: `insert_unchecked` and `push_to_same_last` with a key
differing from the last entry's key leave all previously stored pairs in
place and append one entry; `push_to_same_last` with a key equal to the
last entry's key only appends one element to the last entry's value
sequence, leaving its key, all earlier pairs, and the entry count
unchanged. -/
theorem C10_insertion_frame {D V W : Type} [DecidableEq D]
    (m1 : SerdeMap D V) (k1 : D) (v1 : V)
    (m2 : SerdeMap D (List W)) (k : D) (w : W) :
    ((m1.insert_unchecked k1 v1).data.take m1.data.length = m1.data
        ∧ (m1.insert_unchecked k1 v1).len = m1.len + 1)
      ∧ (∀ p, m2.data.getLast? = some p → p.1 ≠ k →
          (m2.push_to_same_last k w).data.take m2.data.length = m2.data
            ∧ (m2.push_to_same_last k w).len = m2.len + 1)
      ∧ (∀ p, m2.data.getLast? = some p → p.1 = k →
          (m2.push_to_same_last k w).data.dropLast = m2.data.dropLast
            ∧ (m2.push_to_same_last k w).data.getLast?
                = some (p.1, p.2 ++ [w])
            ∧ (m2.push_to_same_last k w).len = m2.len) := by
  refine ⟨⟨?_, ?_⟩, ?_, ?_⟩
  · simp [SerdeMap.insert_unchecked, List.take_left]
  · simp [SerdeMap.insert_unchecked, SerdeMap.len]
  · intro p hlast hne
    have hpush : m2.push_to_same_last k w = ⟨m2.data ++ [(k, [w])]⟩ := by
      simp [SerdeMap.push_to_same_last, hlast, hne]
    rw [hpush]
    exact ⟨List.take_left m2.data [(k, [w])], by simp [SerdeMap.len]⟩
  · intro p hlast heq
    have hpush : m2.push_to_same_last k w
        = ⟨m2.data.dropLast ++ [(p.1, p.2 ++ [w])]⟩ := by
      simp [SerdeMap.push_to_same_last, hlast, heq]
    have hne' : m2.data ≠ [] := by
      intro h0
      rw [h0] at hlast
      simp at hlast
    have hpos : 0 < m2.data.length := List.length_pos.mpr hne'
    rw [hpush]
    refine ⟨List.dropLast_concat, List.getLast?_concat _, ?_⟩
    simp [SerdeMap.len, List.length_dropLast]
    omega

/-- Claim C10 witness at concrete inputs, covering the fresh-key and
equal-key branches. -/
theorem C10_insertion_frame_witness :
    ((SerdeMap.mk [((5 : Nat), (6 : Nat))]).insert_unchecked 7 8).data.take
        (SerdeMap.mk [((5 : Nat), (6 : Nat))]).data.length
      = (SerdeMap.mk [((5 : Nat), (6 : Nat))]).data
    ∧ ((SerdeMap.mk [((1 : Nat), [(2 : Nat)])]).push_to_same_last 3 9).len
      = (SerdeMap.mk [((1 : Nat), [(2 : Nat)])]).len + 1
    ∧ ((SerdeMap.mk [((1 : Nat), [(2 : Nat)])]).push_to_same_last 1 9
        ).data.getLast? = some (1, [2] ++ [9]) :=
  ⟨(C10_insertion_frame (SerdeMap.mk [((5 : Nat), (6 : Nat))]) 7 8
      (SerdeMap.mk [((1 : Nat), [(2 : Nat)])]) 3 9).1.1,
   ((C10_insertion_frame (SerdeMap.mk [((5 : Nat), (6 : Nat))]) 7 8
      (SerdeMap.mk [((1 : Nat), [(2 : Nat)])]) 3 9).2.1 (1, [2]) rfl
      (by decide)).2,
   ((C10_insertion_frame (SerdeMap.mk [((5 : Nat), (6 : Nat))]) 7 8
      (SerdeMap.mk [((1 : Nat), [(2 : Nat)])]) 1 9).2.2 (1, [2]) rfl
      rfl).2.1⟩

theorem hmInsert_fresh {D V : Type} [DecidableEq D] (l : List (D × V))
    (k : D) (v : V) (h : k ∉ hmKeys l) : hmInsert l k v = l ++ [(k, v)] := by
  simp [hmInsert, h]

theorem foldl_hmInsert_fresh {D V : Type} [DecidableEq D]
    (pairs : List (D × V)) :
    ∀ acc : List (D × V), (hmKeys acc ++ hmKeys pairs).Nodup →
      pairs.foldl (fun a kv => hmInsert a kv.1 kv.2) acc = acc ++ pairs := by
  induction pairs with
  | nil => intro acc _; simp
  | cons p t ih =>
      intro acc h
      obtain ⟨k, v⟩ := p
      have hparts := List.nodup_append.mp h
      have hk : k ∉ hmKeys acc := fun hmem =>
        hparts.2.2 hmem (by simp [hmKeys])
      rw [List.foldl_cons]
      have hstep : hmInsert acc k v = acc ++ [(k, v)] := hmInsert_fresh _ _ _ hk
      show List.foldl (fun a kv => hmInsert a kv.1 kv.2) (hmInsert acc k v) t
        = acc ++ (k, v) :: t
      rw [hstep]
      have h2 : (hmKeys (acc ++ [(k, v)]) ++ hmKeys t).Nodup := by
        have : ((hmKeys acc ++ [k]) ++ hmKeys t).Nodup := by
          rw [List.append_assoc]
          exact h
        simpa [hmKeys] using this
      rw [ih (acc ++ [(k, v)]) h2]
      simp

theorem find?_map_replace_eq {D V : Type} [DecidableEq D] (k₀ : D) (v₀ : V)
    (l : List (D × V)) (h : k₀ ∈ hmKeys l) :
    (l.map (fun kv => if kv.1 = k₀ then (k₀, v₀) else kv)).find?
        (fun kv => kv.1 = k₀) = some (k₀, v₀) := by
  induction l with
  | nil => simp [hmKeys] at h
  | cons p t ih =>
      by_cases hp : p.1 = k₀
      · simp [hp]
      · have ht : k₀ ∈ hmKeys t := by
          rcases List.mem_cons.mp h with h1 | h1
          · exact absurd h1.symm hp
          · exact h1
        simp [hp, ih ht]

theorem find?_map_replace_ne {D V : Type} [DecidableEq D] (k₀ k : D)
    (v₀ : V) (hk : k ≠ k₀) (l : List (D × V)) :
    (l.map (fun kv => if kv.1 = k₀ then (k₀, v₀) else kv)).find?
        (fun kv => kv.1 = k)
      = l.find? (fun kv => kv.1 = k) := by
  induction l with
  | nil => rfl
  | cons p t ih =>
      by_cases hp : p.1 = k₀
      · have h1 : ¬(k₀ = k) := fun h => hk h.symm
        have h2 : ¬(p.1 = k) := hp ▸ h1
        rw [List.map_cons, if_pos hp,
          List.find?_cons_of_neg _ (by simpa using h1),
          List.find?_cons_of_neg _ (by simpa using h2), ih]
      · by_cases hq : p.1 = k
        · rw [List.map_cons, if_neg hp,
            List.find?_cons_of_pos _ (by simpa using hq),
            List.find?_cons_of_pos _ (by simpa using hq)]
        · rw [List.map_cons, if_neg hp,
            List.find?_cons_of_neg _ (by simpa using hq),
            List.find?_cons_of_neg _ (by simpa using hq), ih]

theorem hmGet_hmInsert {D V : Type} [DecidableEq D] (l : List (D × V))
    (k₀ k : D) (v₀ : V) :
    hmGet (hmInsert l k₀ v₀) k = if k = k₀ then some v₀ else hmGet l k := by
  by_cases hmem : k₀ ∈ hmKeys l
  · rw [hmInsert, if_pos hmem]
    by_cases hk : k = k₀
    · subst hk
      rw [if_pos rfl, hmGet, find?_map_replace_eq _ _ _ hmem]
      rfl
    · rw [if_neg hk, hmGet, hmGet, find?_map_replace_ne _ _ _ hk]
  · rw [hmInsert, if_neg hmem]
    rw [hmGet, hmGet, List.find?_append]
    by_cases hk : k = k₀
    · have hnone : l.find? (fun kv => kv.1 = k) = none := by
        rw [List.find?_eq_none]
        intro kv hkv hdec
        exact hmem (List.mem_map.mpr
          ⟨kv, hkv, (of_decide_eq_true hdec).trans hk⟩)
      have hsingle : ([(k₀, v₀)].find? (fun kv => kv.1 = k))
          = some (k₀, v₀) :=
        List.find?_cons_of_pos _ (by simpa using hk.symm)
      rw [if_pos hk, hnone, hsingle]
      rfl
    · have hsingle : ([(k₀, v₀)].find? (fun kv => kv.1 = k)) = none := by
        rw [List.find?_cons_of_neg _ (by
          simp only [decide_eq_true_eq]
          exact fun h => hk h.symm)]
        rfl
      rw [if_neg hk, hsingle]
      cases l.find? (fun kv => kv.1 = k) <;> rfl

theorem hmGet_foldl_hmInsert {D V : Type} [DecidableEq D]
    (pairs : List (D × V)) :
    ∀ (acc : List (D × V)) (k : D),
      hmGet (pairs.foldl (fun a kv => hmInsert a kv.1 kv.2) acc) k
        = match lookupLast pairs k with
          | some w => some w
          | none => hmGet acc k := by
  induction pairs with
  | nil => intro acc k; rfl
  | cons p t ih =>
      intro acc k
      obtain ⟨k₀, v₀⟩ := p
      rw [List.foldl_cons, ih]
      cases hL : lookupLast t k with
      | some w => simp [lookupLast, hL]
      | none =>
          show hmGet (hmInsert acc k₀ v₀) k
            = match lookupLast ((k₀, v₀) :: t) k with
              | some w => some w
              | none => hmGet acc k
          rw [hmGet_hmInsert]
          show _ = match (match lookupLast t k with
              | some w => some w
              | none => if k = k₀ then some v₀ else none) with
            | some w => some w
            | none => hmGet acc k
          rw [hL]
          by_cases hk : k = k₀ <;> simp [hk]

/-- Claim C6: a container built from a hash map (no duplicate keys) and
converted back to a hash map holds exactly the original key/value set; a
container built from an ordered sequence and converted to a hash map keeps,
for each key, only the value of its last occurrence. -/
theorem C6_hashmap_conversion {D V : Type} [DecidableEq D]
    (h : List (D × V)) (hnd : (hmKeys h).Nodup) (l : List (D × V)) (k : D) :
    (∀ kv : D × V, kv ∈ (SerdeMap.from_hash_map h).to_hash_map ↔ kv ∈ h)
      ∧ hmGet (SerdeMap.from_vec l).to_hash_map k = lookupLast l k := by
  constructor
  · have heq : (SerdeMap.from_hash_map h).to_hash_map = h := by
      show hmFromList h = h
      have := foldl_hmInsert_fresh h [] (by simpa [hmKeys] using hnd)
      simpa [hmFromList] using this
    simp [heq]
  · show hmGet (hmFromList l) k = lookupLast l k
    rw [hmFromList, hmGet_foldl_hmInsert]
    cases hL : lookupLast l k <;> simp [hmGet]

/-- Claim C6 witness at concrete inputs: a two-entry hash map round-trips,
and a duplicate-keyed sequence keeps the last value for the repeated key. -/
theorem C6_hashmap_conversion_witness :
    (((1 : Nat), (10 : Nat)) ∈
        (SerdeMap.from_hash_map [(1, 10), (2, 20)]).to_hash_map
      ↔ ((1 : Nat), (10 : Nat)) ∈ [(1, 10), (2, 20)])
    ∧ hmGet (SerdeMap.from_vec [((1 : Nat), (5 : Nat)), (2, 6), (1, 7)]
        ).to_hash_map 1
      = lookupLast [((1 : Nat), (5 : Nat)), (2, 6), (1, 7)] 1 :=
  ⟨(C6_hashmap_conversion [(1, 10), (2, 20)] (by decide)
      [((1 : Nat), (5 : Nat)), (2, 6), (1, 7)] 1).1 (1, 10),
   (C6_hashmap_conversion [(1, 10), (2, 20)] (by decide)
      [((1 : Nat), (5 : Nat)), (2, 6), (1, 7)] 1).2⟩

theorem serializeEntries_no_typecheck {KD VD ε : Type} (rust_name : String)
    (typ ktyp vtyp : ColumnType)
    (serK : KD → ColumnType → Except ε (List Nat))
    (serV : VD → ColumnType → Except ε (List Nat)) :
    ∀ (l : List (KD × VD)) (builder : List Nat) (e : BuiltinTypeCheckError),
      serializeEntries rust_name typ ktyp vtyp serK serV builder l
        ≠ Except.error (SerializationError.typeCheckError e) := by
  intro l
  induction l with
  | nil => intro builder e h; simp [serializeEntries] at h
  | cons p t ih =>
      intro builder e h
      obtain ⟨k, v⟩ := p
      simp only [serializeEntries] at h
      split at h
      · simp at h
      · split at h
        · simp at h
        · exact ih _ e h

theorem serializeEntries_ok_extends {KD VD ε : Type} (rust_name : String)
    (typ ktyp vtyp : ColumnType)
    (serK : KD → ColumnType → Except ε (List Nat))
    (serV : VD → ColumnType → Except ε (List Nat)) :
    ∀ (l : List (KD × VD)) (builder bytes : List Nat),
      serializeEntries rust_name typ ktyp vtyp serK serV builder l
          = Except.ok bytes →
      ∃ rest, bytes = builder ++ rest := by
  intro l
  induction l with
  | nil =>
      intro builder bytes h
      simp only [serializeEntries] at h
      exact ⟨[], by simp [← Except.ok.inj h]⟩
  | cons p t ih =>
      intro builder bytes h
      obtain ⟨k, v⟩ := p
      simp only [serializeEntries] at h
      split at h
      · simp at h
      · split at h
        · simp at h
        · rename_i xK kb hK xV vb hV
          obtain ⟨rest, hr⟩ := ih _ _ h
          exact ⟨kb ++ (vb ++ rest), by
            rw [hr]
            simp [List.append_assoc]⟩

/-- Claim C7 counterexample: an unfrozen map column whose key element type
the key serializer rejects (modelling element types incompatible with the
key type) does NOT produce a "not a map" type-check failure — the
type-check passes and the failure surfaces later as a
`KeySerializationFailed` serialization error, i.e. serialization IS
reached. -/
theorem C7_counterexample :
    serialize_mapping "serde_map::SerdeMap" 1 [((0 : Nat), (0 : Nat))]
        (ColumnType.mapCollection false (ColumnType.native "text")
          (ColumnType.native "text"))
        (fun _ _ => (Except.error () : Except Unit (List Nat)))
        (fun _ _ => Except.ok [])
      = Except.error (SerializationError.serializationError
          ⟨"serde_map::SerdeMap",
            ColumnType.mapCollection false (ColumnType.native "text")
              (ColumnType.native "text"),
            BuiltinSerializationErrorKind.mapError
              (MapSerializationErrorKind.keySerializationFailed ())⟩)
    ∧ serialize_mapping "serde_map::SerdeMap" 1 [((0 : Nat), (0 : Nat))]
        (ColumnType.mapCollection false (ColumnType.native "text")
          (ColumnType.native "text"))
        (fun _ _ => (Except.error () : Except Unit (List Nat)))
        (fun _ _ => Except.ok [])
      ≠ Except.error (SerializationError.typeCheckError
          ⟨"serde_map::SerdeMap",
            ColumnType.mapCollection false (ColumnType.native "text")
              (ColumnType.native "text"), MapTypeCheckErrorKind.notMap⟩) := by
  constructor
  · rfl
  · intro h
    simp [serialize_mapping, serializeEntries, i32Max] at h

/-- Claim C7 (amended): the "not a map" type-check failure — carrying the
requesting type's name and the offending column type — occurs for exactly
the column types that are not unfrozen map collections, regardless of
element types, and then serialization is never reached (the error is
returned with no bytes produced); for an unfrozen map collection the
type-check never fails, and element-type incompatibility surfaces later as
a key/value serialization error. -/
theorem C7_typecheck_amended {KD VD ε : Type} (rust_name : String)
    (len : Nat) (entries : List (KD × VD)) (typ : ColumnType)
    (serK : KD → ColumnType → Except ε (List Nat))
    (serV : VD → ColumnType → Except ε (List Nat)) :
    (isUnfrozenMap typ = false →
      serialize_mapping rust_name len entries typ serK serV
        = Except.error (SerializationError.typeCheckError
            ⟨rust_name, typ, MapTypeCheckErrorKind.notMap⟩))
    ∧ (isUnfrozenMap typ = true →
      ∀ e : BuiltinTypeCheckError,
        serialize_mapping rust_name len entries typ serK serV
          ≠ Except.error (SerializationError.typeCheckError e)) := by
  constructor
  · intro hf
    cases typ with
    | mapCollection frozen kt vt =>
        cases frozen with
        | false => simp [isUnfrozenMap] at hf
        | true => rfl
    | listCollection frozen elem => rfl
    | setCollection frozen elem => rfl
    | native n => rfl
  · intro ht e h
    cases typ with
    | mapCollection frozen kt vt =>
        cases frozen with
        | true => simp [isUnfrozenMap] at ht
        | false =>
            simp only [serialize_mapping] at h
            split at h
            · split at h
              case _ heq =>
                rw [h] at heq
                exact serializeEntries_no_typecheck rust_name _ kt vt
                  serK serV entries _ e heq
              case _ heq =>
                split at h
                · simp at h
                · simp at h
            · simp at h
    | listCollection frozen elem => simp [isUnfrozenMap] at ht
    | setCollection frozen elem => simp [isUnfrozenMap] at ht
    | native n => simp [isUnfrozenMap] at ht

/-- Claim C7 witness at concrete inputs: a native column type fails the
type check with the "not a map" report, and an unfrozen map column never
produces a "not a map" type-check error. -/
theorem C7_typecheck_amended_witness :
    serialize_mapping "serde_map::SerdeMap" 0 ([] : List (Nat × Nat))
        (ColumnType.native "int")
        (fun _ _ => (Except.ok [] : Except Unit (List Nat)))
        (fun _ _ => Except.ok [])
      = Except.error (SerializationError.typeCheckError
          ⟨"serde_map::SerdeMap", ColumnType.native "int",
            MapTypeCheckErrorKind.notMap⟩)
    ∧ serialize_mapping "serde_map::SerdeMap" 0 ([] : List (Nat × Nat))
        (ColumnType.mapCollection false (ColumnType.native "int")
          (ColumnType.native "int"))
        (fun _ _ => (Except.ok [] : Except Unit (List Nat)))
        (fun _ _ => Except.ok [])
      ≠ Except.error (SerializationError.typeCheckError
          ⟨"serde_map::SerdeMap",
            ColumnType.mapCollection false (ColumnType.native "int")
              (ColumnType.native "int"), MapTypeCheckErrorKind.notMap⟩) :=
  ⟨(C7_typecheck_amended "serde_map::SerdeMap" 0 []
      (ColumnType.native "int")
      (fun _ _ => (Except.ok [] : Except Unit (List Nat)))
      (fun _ _ => Except.ok [])).1 rfl,
   (C7_typecheck_amended "serde_map::SerdeMap" 0 []
      (ColumnType.mapCollection false (ColumnType.native "int")
        (ColumnType.native "int"))
      (fun _ _ => (Except.ok [] : Except Unit (List Nat)))
      (fun _ _ => Except.ok [])).2 rfl
     ⟨"serde_map::SerdeMap",
       ColumnType.mapCollection false (ColumnType.native "int")
         (ColumnType.native "int"), MapTypeCheckErrorKind.notMap⟩⟩

/-- Claim C8: the scylla serializer writes the 4-byte big-endian element
count first (any successful output starts with `toBeBytes32 len`), and a
container with more than `i32::MAX` entries fails with the
`TooManyElements` error — the error is returned instead of any byte
output. -/
theorem C8_element_count {KD VD ε : Type} (typeName : String)
    (m : SerdeMap KD VD)
    (serK : KD → ColumnType → Except ε (List Nat))
    (serV : VD → ColumnType → Except ε (List Nat))
    (ktyp vtyp : ColumnType) :
    (i32Max < m.len →
      m.scylla_serialize typeName serK serV
          (ColumnType.mapCollection false ktyp vtyp)
        = Except.error (SerializationError.serializationError
            ⟨typeName, ColumnType.mapCollection false ktyp vtyp,
              BuiltinSerializationErrorKind.mapError
                MapSerializationErrorKind.tooManyElements⟩))
    ∧ (∀ bytes,
        m.scylla_serialize typeName serK serV
            (ColumnType.mapCollection false ktyp vtyp)
          = Except.ok bytes →
        bytes.take 4 = toBeBytes32 m.len) := by
  constructor
  · intro hlen
    show (if m.len ≤ i32Max then _ else _) = _
    rw [if_neg (Nat.not_le.mpr hlen)]
  · intro bytes h
    simp only [SerdeMap.scylla_serialize, serialize_mapping] at h
    split at h
    · split at h
      case _ heq => simp at h
      case _ heq =>
        split at h
        · obtain ⟨rest, hr⟩ := serializeEntries_ok_extends typeName _ ktyp vtyp
            serK serV m.data _ _ heq
          rw [← Except.ok.inj h, hr]
          show (toBeBytes32 m.len ++ rest).take (toBeBytes32 m.len).length
            = toBeBytes32 m.len
          exact List.take_left _ _
        · simp at h
    · simp at h

/-- Claim C8 witness: a container with `i32::MAX + 1` entries fails with
`TooManyElements`, and a successful one-entry serialization's output
starts with the big-endian count. -/
theorem C8_element_count_witness :
    SerdeMap.scylla_serialize "serde_map::SerdeMap"
        (SerdeMap.mk (List.replicate 2147483648 ((0 : Nat), (0 : Nat))))
        (fun _ _ => (Except.ok [] : Except Unit (List Nat)))
        (fun _ _ => Except.ok [])
        (ColumnType.mapCollection false (ColumnType.native "int")
          (ColumnType.native "int"))
      = Except.error (SerializationError.serializationError
          ⟨"serde_map::SerdeMap",
            ColumnType.mapCollection false (ColumnType.native "int")
              (ColumnType.native "int"),
            BuiltinSerializationErrorKind.mapError
              MapSerializationErrorKind.tooManyElements⟩)
    ∧ ([0, 0, 0, 1, 7, 8] : List Nat).take 4
      = toBeBytes32 (SerdeMap.mk [((0 : Nat), (0 : Nat))]).len :=
  ⟨(C8_element_count "serde_map::SerdeMap"
      (SerdeMap.mk (List.replicate 2147483648 ((0 : Nat), (0 : Nat))))
      (fun _ _ => (Except.ok [] : Except Unit (List Nat)))
      (fun _ _ => Except.ok []) (ColumnType.native "int")
      (ColumnType.native "int")).1
      (by
        show i32Max
          < (List.replicate 2147483648 ((0 : Nat), (0 : Nat))).length
        rw [List.length_replicate]
        decide),
   (C8_element_count "serde_map::SerdeMap"
      (SerdeMap.mk [((0 : Nat), (0 : Nat))])
      (fun _ _ => (Except.ok [7] : Except Unit (List Nat)))
      (fun _ _ => Except.ok [8]) (ColumnType.native "int")
      (ColumnType.native "int")).2 [0, 0, 0, 1, 7, 8] rfl⟩

end SerdeMapModel
